import Mathlib

/-!
Verification of the menu-scraping pipeline
(`jupyter_menu_scraper.py` and `firefox_menu_scraper.py`).

The extractors consume a rendered page through a fixed set of CSS
selectors.  We embed the *result* of those selector queries as explicit
data: a page is the list of category blocks the top-level selector would
return, a category block carries the optional title text and the list of
item blocks found inside it, and an item block carries the optional text
of each sub-element the extractor queries (`select_one` returning `None`
is `Option.none`; an element whose stripped text is empty is
`some ""`).  Serialization side effects are embedded as the value the
function would write (`Option.none` = no file written).
-/

/-- One `.nutrition-item` block: the optional `.nutrition-key` and
`.nutrition-value` sub-elements (stripped text, `none` when the
sub-element is absent). -/
structure NutritionItem where
  key : Option String
  value : Option String
deriving DecidableEq

/-- One menu-item block, as seen through the sub-element selectors all
three extractors use: optional name, description and price texts, the
`src` attribute of the `img` tag (`none` when the tag or the attribute is
absent), and the optional `.nutrition-info` section with its
`.nutrition-item` children. -/
structure ItemBlock where
  nameElem : Option String
  descElem : Option String
  priceElem : Option String
  imgSrc : Option String
  nutritionElem : Option (List NutritionItem)
deriving DecidableEq

/-- One top-level category block: the stripped text of the optional title element and
the item blocks found inside the block. -/
structure CategoryBlock where
  titleElem : Option String
  items : List ItemBlock
deriving DecidableEq

/-- The canonical record each extractor appends to `menu_data`.
`nutritional_info = none` models a Python dict without the
`"nutritional_info"` key (the McDonalds, Burger King and Firefox A&W
extractors); `some m` models the key being present with dict `m` (the
Jupyter A&W extractor, possibly with an empty dict). -/
structure MenuItem where
  restaurant : String
  category : String
  name : String
  price : String
  description : String
  image_url : String
  nutritional_info : Option (List (String × String))
deriving DecidableEq

/-! ### Python string primitives

Embedded at the character-list level so that every definition reduces
on concrete inputs. -/

/-- `pat` is a prefix of `s` (character lists). -/
def listStarts : List Char → List Char → Bool
  | [], _ => true
  | _ :: _, [] => false
  | p :: ps, c :: cs => p = c && listStarts ps cs

/-- Python `pat in s` (substring containment) on character lists. -/
def listContains (pat : List Char) : List Char → Bool
  | [] => listStarts pat []
  | c :: cs => listStarts pat (c :: cs) || listContains pat cs

/-- Python `pat in s` for strings. -/
def pyIn (pat s : String) : Bool :=
  listContains pat.data s.data

/-- Python `s.startswith(pat)`. -/
def pyStartsWith (s pat : String) : Bool :=
  listStarts pat.data s.data

/-- Python `s.lower()`: lowercase every character. -/
def pyLower (s : String) : String :=
  String.mk (s.data.map Char.toLower)

/-- Python `s.strip()`: drop leading and trailing whitespace. -/
def pyStrip (s : String) : String :=
  String.mk
    (((s.data.dropWhile Char.isWhitespace).reverse.dropWhile
        Char.isWhitespace).reverse)

/-- `category_title_elem.get_text(strip=True) if category_title_elem
else "Uncategorized"` (same guard in `scrape_aw`, `scrape_mcdonalds`
and `scrape_burger_king`). -/
def categoryLabel (c : CategoryBlock) : String :=
  c.titleElem.getD "Uncategorized"

/-- Python dict insertion `d[k] = v`: replace the value in place when
the key exists, otherwise append the binding. -/
def dictInsert (m : List (String × String)) (k v : String) :
    List (String × String) :=
  if m.any (fun p => p.1 == k) then
    m.map (fun p => if p.1 == k then (k, v) else p)
  else m ++ [(k, v)]

/-- The nutrition loop of `MenuScraper.scrape_aw` (lines 184-195):
starting from an empty dict, for each `.nutrition-item` whose key and
value sub-elements are both present, insert the key/value texts. -/
def extractNutrition : Option (List NutritionItem) → List (String × String)
  | none => []
  | some ns =>
    ns.foldl
      (fun acc n =>
        match n.key, n.value with
        | some k, some v => dictInsert acc k v
        | _, _ => acc) []

/-- The A&W image logic (identical in `MenuScraper.scrape_aw` lines
174-182 and `scrape_aw_menu` lines 102-108): start from `""`; when an
`img` tag with a truthy `src` exists take the `src`, prefixing
`https://web.aw.ca` when it is root-relative. -/
def awImageUrl : Option String → String
  | none => ""
  | some s =>
    if s = "" then ""
    else if pyStartsWith s "/" then "https://web.aw.ca" ++ s else s

/-- The McDonalds / Burger King image logic (`scrape_mcdonalds` lines
250-254): take the truthy `src` verbatim, with no rewriting of
root-relative paths. -/
def mcdImageUrl : Option String → String
  | none => ""
  | some s => if s = "" then "" else s

/-- The `restaurant` constant of `scrape_mcdonalds`: the string McDonalds
with an apostrophe before the final s. -/
def mcdonaldsRestaurant : String :=
  "McDonald" ++ String.mk [Char.ofNat 39] ++ "s"

/-- The record `MenuScraper.scrape_aw` appends for one item block
(lines 161-205), given the label of the enclosing category. -/
def mkAwItem (category_name : String) (it : ItemBlock) : MenuItem :=
  { restaurant := "A&W"
    category := category_name
    name := it.nameElem.getD "Unknown"
    price := it.priceElem.getD "Price not available online"
    description := it.descElem.getD ""
    image_url := awImageUrl it.imgSrc
    nutritional_info := some (extractNutrition it.nutritionElem) }

/-- The record `MenuScraper.scrape_mcdonalds` appends for one item
block (lines 246-263). -/
def mkMcdItem (category_name : String) (it : ItemBlock) : MenuItem :=
  { restaurant := mcdonaldsRestaurant
    category := category_name
    name := it.nameElem.getD "Unknown"
    price := it.priceElem.getD "N/A"
    description := it.descElem.getD ""
    image_url := mcdImageUrl it.imgSrc
    nutritional_info := none }

/-- The record `scrape_aw_menu` (firefox variant) appends for one item
block (lines 90-117); its dict has no `nutritional_info` key. -/
def mkFfItem (category : String) (it : ItemBlock) : MenuItem :=
  { restaurant := "A&W"
    category := category
    name := it.nameElem.getD "Unknown"
    price := it.priceElem.getD "Price not available online"
    description := it.descElem.getD ""
    image_url := awImageUrl it.imgSrc
    nutritional_info := none }

/-- The extraction core of `MenuScraper.scrape_aw` (lines 147-206):
`menu_data = []`, then for each category block append one record per
item block. -/
def scrape_aw (page : List CategoryBlock) : List MenuItem :=
  page.foldl
    (fun menu_data c =>
      c.items.foldl
        (fun md it => md ++ [mkAwItem (categoryLabel c) it]) menu_data) []

/-- The extraction core of `MenuScraper.scrape_mcdonalds`
(lines 234-263). -/
def scrape_mcdonalds (page : List CategoryBlock) : List MenuItem :=
  page.foldl
    (fun menu_data c =>
      c.items.foldl
        (fun md it => md ++ [mkMcdItem (categoryLabel c) it]) menu_data) []

/-! ### The Firefox A&W extractor -/

/-- Python `replace` of the space by the hyphen on a single character. -/
def pyReplaceSpace (c : Char) : List Char :=
  if c = ' ' then ['-'] else [c]

/-- Python `replace` of the ampersand by the string and on a single character. -/
def pyReplaceAmp (c : Char) : List Char :=
  if c = '&' then ['a', 'n', 'd'] else [c]

/-- Python `replace` removing the apostrophe (`Char.ofNat 39`), on a
single character. -/
def pyDropApos (c : Char) : List Char :=
  if c = Char.ofNat 39 then [] else [c]

/-- Line 88 of `scrape_aw_menu`: on the category label, replace spaces
by hyphens, then ampersands by the string and, then remove
apostrophes, then lowercase.  Each `replace` has a one-character pattern,
so it is the per-character substitution; `.lower()` maps
`Char.toLower` over the result. -/
def category_class (category : String) : String :=
  String.mk
    ((((category.data.flatMap pyReplaceSpace).flatMap
        pyReplaceAmp).flatMap pyDropApos).map Char.toLower)

/-- Modelled from the spec sentence for comparison with
`category_class`: apply the normalization rule in the order stated by
the spec
— lowercase the label, then spaces to hyphens, then ampersands
to and, then remove apostrophes. -/
def spec_normalize (category : String) : String :=
  String.mk
    ((((category.data.map Char.toLower).flatMap pyReplaceSpace).flatMap
        pyReplaceAmp).flatMap pyDropApos)

/-- The rendered page as `scrape_aw_menu` queries it: the stripped
texts of the `.category-menu a` links, and for each CSS class name
the item blocks `soup.select(f".{cls} .item")` would return. -/
structure FirefoxPage where
  categoryLinks : List String
  itemsByClass : String → List ItemBlock

/-- The extraction core of `scrape_aw_menu` (lines 80-117): for each
category link text, select the items under the derived class and append
one record per item block. -/
def scrape_aw_menu (page : FirefoxPage) : List MenuItem :=
  page.categoryLinks.foldl
    (fun menu_data category =>
      (page.itemsByClass (category_class category)).foldl
        (fun md it => md ++ [mkFfItem category it]) menu_data) []

/-! ### The full-page scroll loop

`scroll_to_bottom` (firefox, lines 31-41) and `MenuScraper.scroll_page`
(jupyter, lines 329-344) are the same loop.  `heights i` is the value
the `i`-th evaluation of `return document.body.scrollHeight` would
yield (measurement `0` initializes `last_height`; measurement `i ≥ 1`
is taken by the `i`-th loop iteration after scrolling).  The Python
loop is `while True`, so the embedding is fuel-indexed: `some n` means
the loop exits after exactly `n` scroll-and-remeasure iterations,
`none` means it did not exit within `fuel` iterations. -/

/-- The body of the scroll loop: at measurement index `idx`, with
`last` the previous measurement, remeasure; stop when the height is
unchanged, otherwise continue with the new height. -/
def scrollGo (heights : Nat → Nat) : Nat → Nat → Nat → Option Nat
  | 0, _, _ => none
  | fuel + 1, last, idx =>
    let new_height := heights idx
    if new_height = last then some 1
    else
      match scrollGo heights fuel new_height (idx + 1) with
      | some n => some (n + 1)
      | none => none

/-- The whole loop: `last_height` is measurement `0`, the first
iteration takes measurement `1`. -/
def scroll_page (heights : Nat → Nat) (fuel : Nat) : Option Nat :=
  scrollGo heights fuel (heights 0) 1

/-! ### The batch orchestrator -/

/-- What one site-scrape attempt does once dispatched: either the
browser/driver calls inside the `try` of the method raise (`error`) or the
extraction completes with a list of records (`ok`).  Each `scrape_*`
method wraps its body in `try ... except: return []`. -/
inductive ScrapeOutcome
  | ok (items : List MenuItem)
  | error
deriving DecidableEq

/-- The `try`/`except` wrapper shared by `scrape_aw`,
`scrape_mcdonalds` and `scrape_burger_king`: an exception anywhere in
the body is caught and turned into `[]` (lines 209-211, 267-269,
325-327). -/
def runOutcome : ScrapeOutcome → List MenuItem
  | .ok items => items
  | .error => []

/-- The behaviour of the three site scrapers in one batch run. -/
structure World where
  aw : ScrapeOutcome
  mcdonalds : ScrapeOutcome
  burgerking : ScrapeOutcome

/-- Which extractor `MenuScraper.scrape_restaurant` dispatches to. -/
inductive Which
  | aw
  | mcdonalds
  | burgerking
deriving DecidableEq

/-- The extractor a `World` assigns an outcome for. -/
def World.outcome (w : World) : Which → ScrapeOutcome
  | .aw => w.aw
  | .mcdonalds => w.mcdonalds
  | .burgerking => w.burgerking

/-- The name-resolution chain of `MenuScraper.scrape_restaurant`
(lines 394-406): lowercase and strip the name, then match substrings
in order; an unmatched name resolves to no extractor. -/
def resolve (restaurant_name : String) : Option Which :=
  let n := pyStrip (pyLower restaurant_name)
  if pyIn "a&w" n || pyIn "a & w" n then some .aw
  else if pyIn "mcdonald" n then some .mcdonalds
  else if pyIn "burger king" n || pyIn "burgerking" n then some .burgerking
  else none

/-- `MenuScraper.scrape_restaurant` (lines 394-406): dispatch by the
same chain; an unsupported restaurant is logged and yields `[]`. -/
def scrape_restaurant (w : World) (restaurant_name : String) :
    List MenuItem :=
  let n := pyStrip (pyLower restaurant_name)
  if pyIn "a&w" n || pyIn "a & w" n then runOutcome w.aw
  else if pyIn "mcdonald" n then runOutcome w.mcdonalds
  else if pyIn "burger king" n || pyIn "burgerking" n then
    runOutcome w.burgerking
  else []

/-- The accumulation loop of `run_scraper` (lines 442-457):
`all_menu_data = []`; for each restaurant, scrape it and, when the
result is non-empty, extend the combined list. -/
def run_scraper_combined (w : World) (restaurants : List String) :
    List MenuItem :=
  restaurants.foldl
    (fun all_menu_data r =>
      let menu_data := scrape_restaurant w r
      if menu_data.isEmpty then all_menu_data
      else all_menu_data ++ menu_data) []

/-! ### The record sink -/

/-- The flattening step of `MenuScraper.save_as_csv` (lines 365-375)
applied to one item dict: copy the dict, and when the
`nutritional_info` key holds a dict, replace it by its pairs with keys
prefixed `nutrition_` (appended in insertion order, the original key
deleted). -/
def flattenItem (it : MenuItem) : List (String × String) :=
  [("restaurant", it.restaurant), ("category", it.category),
   ("name", it.name), ("price", it.price),
   ("description", it.description), ("image_url", it.image_url)] ++
  (match it.nutritional_info with
   | some m => m.map (fun kv => ("nutrition_" ++ kv.1, kv.2))
   | none => [])

/-- `all_fields`: the set of keys over all flattened items
(lines 377-380), as the duplicate-free list of keys in order of first
appearance. -/
def allFields (data : List MenuItem) : List String :=
  (data.flatMap (fun it => (flattenItem it).map Prod.fst)).dedup

/-- `fieldnames = sorted(list(all_fields))` (line 382): the keys in
lexicographic (code-point) order. -/
def fieldnames (data : List MenuItem) : List String :=
  List.insertionSort (fun a b => a ≤ b) (allFields data)

/-- One `csv.DictWriter.writerow`: one cell per field name, holding the
value of the item at that key, `""` (the `restval` of the writer) when the key is
absent. -/
def csvRow (fns : List String) (it : MenuItem) : List String :=
  fns.map (fun f => ((flattenItem it).lookup f).getD "")

/-- `MenuScraper.save_as_csv` (lines 357-392): the returned flag and
the file content written, `none` when nothing is written.  Empty data
returns `False` before any file is opened; otherwise the header is
`fieldnames` and there is one row per item. -/
def save_as_csv (data : List MenuItem) :
    Bool × Option (List String × List (List String)) :=
  if data.isEmpty then (false, none)
  else (true, some (fieldnames data, data.map (csvRow (fieldnames data))))

/-- `MenuScraper.save_as_json` (lines 346-355): dumps the item list
as-is (nested structure preserved) and returns `True`; the written
content is the item sequence itself (an empty list serializes as the
empty JSON array).  I/O failure, the only `except` path, is outside
this pure embedding. -/
def save_as_json (data : List MenuItem) :
    Bool × Option (List MenuItem) :=
  (true, some data)

/-! ### Concrete fixtures used by the witnesses -/

/-- A fully populated item block, with a root-relative image path. -/
def itemA : ItemBlock :=
  { nameElem := some "Teen Burger"
    descElem := some "A classic burger"
    priceElem := some "6.49"
    imgSrc := some "/images/teen.png"
    nutritionElem := some [{ key := some "calories", value := some "500" }] }

/-- An item block with every optional sub-element missing. -/
def itemB : ItemBlock :=
  { nameElem := none, descElem := none, priceElem := none,
    imgSrc := none, nutritionElem := none }

/-- A titled category block with two items. -/
def catBurgers : CategoryBlock :=
  { titleElem := some "Burgers", items := [itemA, itemB] }

/-- A category block whose title element is absent. -/
def catNoTitle : CategoryBlock :=
  { titleElem := none, items := [itemA, itemB] }

/-- A two-category fixture page. -/
def pageEx : List CategoryBlock := [catBurgers, catNoTitle]

/-! ### Helper lemmas -/

/-- The append-one-record loop is `map`. -/
theorem foldl_append_map {α β : Type} (f : α → β) :
    ∀ (l : List α) (init : List β),
      l.foldl (fun acc x => acc ++ [f x]) init = init ++ l.map f := by
  intro l
  induction l with
  | nil => intro init; simp
  | cons x xs ih => intro init; simp [ih]

/-- The nested append loop of the extractors is `flatMap` of `map`. -/
theorem foldl_nested_append {α β γ : Type} (items : α → List β)
    (f : α → β → γ) :
    ∀ (l : List α) (init : List γ),
      l.foldl
        (fun acc c => (items c).foldl (fun a it => a ++ [f c it]) acc) init
        = init ++ l.flatMap (fun c => (items c).map (f c)) := by
  intro l
  induction l with
  | nil => intro init; simp
  | cons c cs ih =>
    intro init
    rw [List.foldl_cons, foldl_append_map, ih, List.flatMap_cons,
      List.append_assoc]

/-- `scrape_aw` as a `flatMap`. -/
theorem scrape_aw_flatMap (page : List CategoryBlock) :
    scrape_aw page =
      page.flatMap (fun c => c.items.map (mkAwItem (categoryLabel c))) := by
  simpa [scrape_aw] using
    foldl_nested_append (fun c : CategoryBlock => c.items)
      (fun c it => mkAwItem (categoryLabel c) it) page []

/-- `scrape_mcdonalds` as a `flatMap`. -/
theorem scrape_mcdonalds_flatMap (page : List CategoryBlock) :
    scrape_mcdonalds page =
      page.flatMap (fun c => c.items.map (mkMcdItem (categoryLabel c))) := by
  simpa [scrape_mcdonalds] using
    foldl_nested_append (fun c : CategoryBlock => c.items)
      (fun c it => mkMcdItem (categoryLabel c) it) page []

/-- `scrape_aw_menu` as a `flatMap`. -/
theorem scrape_aw_menu_flatMap (page : FirefoxPage) :
    scrape_aw_menu page =
      page.categoryLinks.flatMap
        (fun cat => (page.itemsByClass (category_class cat)).map
          (mkFfItem cat)) := by
  simpa [scrape_aw_menu] using
    foldl_nested_append
      (fun cat => page.itemsByClass (category_class cat))
      (fun cat it => mkFfItem cat it) page.categoryLinks []

/-- Length of a `flatMap` whose pieces all have length `M`. -/
theorem length_flatMap_const {α β : Type} (f : α → List β) (M : Nat) :
    ∀ (l : List α), (∀ c ∈ l, (f c).length = M) →
      (l.flatMap f).length = l.length * M := by
  intro l
  induction l with
  | nil => intro _; simp
  | cons c cs ih =>
    intro h
    have hc : (f c).length = M := h c (List.mem_cons_self c cs)
    have ihs := ih (fun x hx => h x (List.mem_cons_of_mem c hx))
    simp [List.flatMap_cons, hc, ihs, Nat.succ_mul]
    omega

/-! ### Claim theorems -/

/-- C1: for a page with `N` well-formed category blocks each containing
`M` well-formed item blocks, each extractor (Jupyter A&W, Jupyter
McDonalds, Firefox A&W) returns exactly `N*M` records, and the
`category` field of every record equals the label of the category block it was
found in. -/
theorem extract_count_and_attribution :
    (∀ (page : List CategoryBlock) (M : Nat),
        (∀ c ∈ page, c.items.length = M) →
        (scrape_aw page).length = page.length * M ∧
        ∀ x ∈ scrape_aw page, ∃ c ∈ page, ∃ it ∈ c.items,
          x = mkAwItem (categoryLabel c) it ∧
          x.category = categoryLabel c) ∧
    (∀ (page : List CategoryBlock) (M : Nat),
        (∀ c ∈ page, c.items.length = M) →
        (scrape_mcdonalds page).length = page.length * M ∧
        ∀ x ∈ scrape_mcdonalds page, ∃ c ∈ page, ∃ it ∈ c.items,
          x = mkMcdItem (categoryLabel c) it ∧
          x.category = categoryLabel c) ∧
    (∀ (page : FirefoxPage) (M : Nat),
        (∀ cat ∈ page.categoryLinks,
          (page.itemsByClass (category_class cat)).length = M) →
        (scrape_aw_menu page).length = page.categoryLinks.length * M ∧
        ∀ x ∈ scrape_aw_menu page, ∃ cat ∈ page.categoryLinks,
          ∃ it ∈ page.itemsByClass (category_class cat),
            x = mkFfItem cat it ∧ x.category = cat) := by
  refine ⟨?_, ?_, ?_⟩
  · intro page M h
    rw [scrape_aw_flatMap]
    refine ⟨length_flatMap_const _ M page
      (fun c hc => by simp [h c hc]), ?_⟩
    intro x hx
    obtain ⟨c, hc, hx⟩ := List.mem_flatMap.1 hx
    obtain ⟨it, hit, rfl⟩ := List.mem_map.1 hx
    exact ⟨c, hc, it, hit, rfl, rfl⟩
  · intro page M h
    rw [scrape_mcdonalds_flatMap]
    refine ⟨length_flatMap_const _ M page
      (fun c hc => by simp [h c hc]), ?_⟩
    intro x hx
    obtain ⟨c, hc, hx⟩ := List.mem_flatMap.1 hx
    obtain ⟨it, hit, rfl⟩ := List.mem_map.1 hx
    exact ⟨c, hc, it, hit, rfl, rfl⟩
  · intro page M h
    rw [scrape_aw_menu_flatMap]
    refine ⟨length_flatMap_const _ M page.categoryLinks
      (fun c hc => by simp [h c hc]), ?_⟩
    intro x hx
    obtain ⟨cat, hc, hx⟩ := List.mem_flatMap.1 hx
    obtain ⟨it, hit, rfl⟩ := List.mem_map.1 hx
    exact ⟨cat, hc, it, hit, rfl, rfl⟩

/-- Witness for C1: a concrete page of two categories with two items
each yields four records. -/
theorem extract_count_and_attribution_witness :
    (∀ c ∈ pageEx, c.items.length = 2) ∧
    (scrape_aw pageEx).length = pageEx.length * 2 :=
  ⟨by decide, (extract_count_and_attribution.1 pageEx 2 (by decide)).1⟩

/-- C4: an item block with a missing optional sub-element is still
emitted (the record count depends only on the number of item blocks)
and the corresponding field is the documented sentinel: `""` for
description and image, `"Price not available online"` for price,
`"Unknown"` for a missing name (Jupyter and Firefox A&W extractors). -/
theorem missing_subelement_sentinels :
    (∀ (page : List CategoryBlock),
        (scrape_aw page).length =
          (page.map (fun c => c.items.length)).sum ∧
        ∀ c ∈ page, ∀ it ∈ c.items,
          mkAwItem (categoryLabel c) it ∈ scrape_aw page ∧
          (it.descElem = none →
            (mkAwItem (categoryLabel c) it).description = "") ∧
          (it.priceElem = none →
            (mkAwItem (categoryLabel c) it).price =
              "Price not available online") ∧
          (it.imgSrc = none →
            (mkAwItem (categoryLabel c) it).image_url = "") ∧
          (it.nameElem = none →
            (mkAwItem (categoryLabel c) it).name = "Unknown")) ∧
    (∀ (page : FirefoxPage), ∀ cat ∈ page.categoryLinks,
        ∀ it ∈ page.itemsByClass (category_class cat),
          mkFfItem cat it ∈ scrape_aw_menu page ∧
          (it.descElem = none → (mkFfItem cat it).description = "") ∧
          (it.priceElem = none →
            (mkFfItem cat it).price = "Price not available online") ∧
          (it.imgSrc = none → (mkFfItem cat it).image_url = "") ∧
          (it.nameElem = none → (mkFfItem cat it).name = "Unknown")) := by
  constructor
  · intro page
    constructor
    · rw [scrape_aw_flatMap, List.length_flatMap]
      simp only [Function.comp_def, List.length_map]
    · intro c hc it hit
      refine ⟨?_, ?_, ?_, ?_, ?_⟩
      · rw [scrape_aw_flatMap]
        exact List.mem_flatMap.2 ⟨c, hc, List.mem_map.2 ⟨it, hit, rfl⟩⟩
      · intro h; simp [mkAwItem, h]
      · intro h; simp [mkAwItem, h]
      · intro h; simp [mkAwItem, awImageUrl, h]
      · intro h; simp [mkAwItem, h]
  · intro page cat hc it hit
    refine ⟨?_, ?_, ?_, ?_, ?_⟩
    · rw [scrape_aw_menu_flatMap]
      exact List.mem_flatMap.2 ⟨cat, hc, List.mem_map.2 ⟨it, hit, rfl⟩⟩
    · intro h; simp [mkFfItem, h]
    · intro h; simp [mkFfItem, h]
    · intro h; simp [mkFfItem, awImageUrl, h]
    · intro h; simp [mkFfItem, h]

/-- Witness for C4: the all-optional-missing item block of the fixture
page is emitted with every sentinel. -/
theorem missing_subelement_sentinels_witness :
    itemB ∈ catBurgers.items ∧
    (mkAwItem (categoryLabel catBurgers) itemB).description = "" ∧
    (mkAwItem (categoryLabel catBurgers) itemB).price =
      "Price not available online" ∧
    (mkAwItem (categoryLabel catBurgers) itemB).image_url = "" ∧
    (mkAwItem (categoryLabel catBurgers) itemB).name = "Unknown" := by
  have h :=
    (missing_subelement_sentinels.1 pageEx).2 catBurgers (by decide)
      itemB (by decide)
  exact ⟨by decide, h.2.1 rfl, h.2.2.1 rfl, h.2.2.2.1 rfl, h.2.2.2.2 rfl⟩

/-- If the measurement `d` steps after `idx` repeats its predecessor,
the loop starting at index `idx` (with `last` the measurement before
`idx`) exits within `d + 1` iterations. -/
theorem scrollGo_terminates (heights : Nat → Nat) :
    ∀ (d idx fuel : Nat), heights (idx + d) = heights (idx + d - 1) →
      1 ≤ idx → d + 1 ≤ fuel →
      ∃ n, 1 ≤ n ∧ n ≤ d + 1 ∧
        scrollGo heights fuel (heights (idx - 1)) idx = some n := by
  intro d
  induction d with
  | zero =>
    intro idx fuel h hidx hfuel
    obtain ⟨f, rfl⟩ : ∃ f, fuel = f + 1 := ⟨fuel - 1, by omega⟩
    have h0 : heights idx = heights (idx - 1) := by simpa using h
    exact ⟨1, le_refl 1, le_refl 1, by simp [scrollGo, h0]⟩
  | succ d ih =>
    intro idx fuel h hidx hfuel
    obtain ⟨f, rfl⟩ : ∃ f, fuel = f + 1 := ⟨fuel - 1, by omega⟩
    by_cases hc : heights idx = heights (idx - 1)
    · exact ⟨1, le_refl 1, by omega, by simp [scrollGo, hc]⟩
    · have h' : heights (idx + 1 + d) = heights (idx + 1 + d - 1) := by
        have e1 : idx + 1 + d = idx + (d + 1) := by omega
        rw [e1]; exact h
      obtain ⟨n, hn1, hn2, hgo⟩ := ih (idx + 1) f h' (by omega) (by omega)
      have e2 : idx + 1 - 1 = idx := by omega
      rw [e2] at hgo
      exact ⟨n + 1, by omega, by omega, by simp [scrollGo, hc, hgo]⟩

/-- C5: the scroll loop (`scroll_to_bottom` / `MenuScraper.scroll_page`)
exits as soon as two consecutive height measurements agree; when the
measurement `k + 1` equals measurement `k` the loop stops within
`k + 1` iterations, and when the height never changes it performs
exactly one scroll-and-remeasure iteration. -/
theorem scroll_loop_convergence (heights : Nat → Nat) (k : Nat)
    (hk : heights (k + 1) = heights k) :
    (∀ fuel, k + 1 ≤ fuel →
      ∃ n, 1 ≤ n ∧ n ≤ k + 1 ∧ scroll_page heights fuel = some n) ∧
    ((∀ i, heights i = heights 0) →
      ∀ fuel, 1 ≤ fuel → scroll_page heights fuel = some 1) := by
  constructor
  · intro fuel hfuel
    have h1 : heights (1 + k) = heights (1 + k - 1) := by
      have e1 : 1 + k = k + 1 := by omega
      rw [e1]
      have e2 : k + 1 - 1 = k := by omega
      rw [e2]; exact hk
    simpa [scroll_page] using
      scrollGo_terminates heights k 1 fuel h1 (le_refl 1) hfuel
  · intro hconst fuel hfuel
    obtain ⟨f, rfl⟩ : ∃ f, fuel = f + 1 := ⟨fuel - 1, by omega⟩
    have h1 : heights 1 = heights 0 := hconst 1
    simp [scroll_page, scrollGo, h1]

/-- A page whose document height never changes. -/
def constHeights : Nat → Nat := fun _ => 1080

/-- Witness for C5: with a constant height the loop does exactly one
scroll-and-remeasure pass. -/
theorem scroll_loop_convergence_witness :
    constHeights 1 = constHeights 0 ∧
    scroll_page constHeights 1 = some 1 :=
  ⟨rfl, (scroll_loop_convergence constHeights 0 rfl).2
    (fun _ => rfl) 1 (le_refl 1)⟩

/-- `scrape_restaurant` factored through the resolution chain. -/
theorem scrape_restaurant_eq_resolve (w : World) (name : String) :
    scrape_restaurant w name =
      match resolve name with
      | some wh => runOutcome (w.outcome wh)
      | none => [] := by
  simp only [scrape_restaurant, resolve]
  split_ifs <;> rfl

/-- The extend-when-non-empty accumulation loop is `flatMap`. -/
theorem foldl_extend_if_nonempty {α β : Type} (g : α → List β) :
    ∀ (l : List α) (init : List β),
      l.foldl
        (fun all r =>
          let d := g r
          if d.isEmpty then all else all ++ d) init
        = init ++ l.flatMap g := by
  intro l
  induction l with
  | nil => intro init; simp
  | cons r rs ih =>
    intro init
    rw [List.foldl_cons, ih, List.flatMap_cons]
    by_cases h : (g r).isEmpty
    · have hnil : g r = [] := List.isEmpty_iff.1 h
      simp [h, hnil]
    · simp [h, List.append_assoc]

/-- C2: per-restaurant failures are isolated.  The combined output of
`run_scraper` is the concatenation of the per-restaurant results; a
restaurant whose extraction raises yields `[]`; a name matching no
extractor yields `[]` without raising; and the result for a restaurant
depends only on the outcome of its own extractor, so the failure of
one restaurant leaves the others unaffected. -/
theorem batch_failure_isolation (w : World) (rs : List String) :
    run_scraper_combined w rs =
      rs.flatMap (fun r => scrape_restaurant w r) ∧
    (∀ r wh, resolve r = some wh → w.outcome wh = .error →
      scrape_restaurant w r = []) ∧
    (∀ r, resolve r = none → scrape_restaurant w r = []) ∧
    (∀ (w2 : World) r wh, resolve r = some wh →
      w2.outcome wh = w.outcome wh →
      scrape_restaurant w2 r = scrape_restaurant w r) := by
  refine ⟨?_, ?_, ?_, ?_⟩
  · simpa [run_scraper_combined] using
      foldl_extend_if_nonempty (fun r => scrape_restaurant w r) rs []
  · intro r wh h1 h2
    rw [scrape_restaurant_eq_resolve w r, h1]
    show runOutcome (w.outcome wh) = []
    rw [h2, runOutcome]
  · intro r h1
    rw [scrape_restaurant_eq_resolve w r, h1]
  · intro w2 r wh h1 h2
    rw [scrape_restaurant_eq_resolve w2 r, scrape_restaurant_eq_resolve w r,
      h1]
    show runOutcome (w2.outcome wh) = runOutcome (w.outcome wh)
    rw [h2]

/-- A sample record for the batch fixtures. -/
def awSampleItem : MenuItem := mkAwItem "Burgers" itemA

/-- A batch world in which only the A&W extraction succeeds and the
other two raise. -/
def wEx : World :=
  { aw := .ok [awSampleItem], mcdonalds := .error, burgerking := .error }

/-- Witness for C2: in the `["A&W", "unknown-place"]` batch the unknown
name yields `[]` and the combined output holds exactly the A&W items. -/
theorem batch_failure_isolation_witness :
    resolve "unknown-place" = none ∧
    scrape_restaurant wEx "unknown-place" = [] ∧
    run_scraper_combined wEx ["A&W", "unknown-place"] = [awSampleItem] :=
  ⟨by decide,
   (batch_failure_isolation wEx []).2.2.1 "unknown-place" (by decide),
   by rw [(batch_failure_isolation wEx ["A&W", "unknown-place"]).1]; decide⟩

/-- The header is sorted. -/
theorem fieldnames_sorted (data : List MenuItem) :
    (fieldnames data).Sorted (fun a b : String => a ≤ b) :=
  List.sorted_insertionSort _ _

/-- The header has no duplicate column. -/
theorem fieldnames_nodup (data : List MenuItem) :
    (fieldnames data).Nodup :=
  (List.perm_insertionSort _ _).symm.nodup (List.nodup_dedup _)

/-- The header columns are exactly the keys of the flattened items. -/
theorem mem_fieldnames (data : List MenuItem) (k : String) :
    k ∈ fieldnames data ↔
      ∃ it ∈ data, k ∈ (flattenItem it).map Prod.fst := by
  unfold fieldnames allFields
  rw [(List.perm_insertionSort _ _).mem_iff, List.mem_dedup,
    List.mem_flatMap]

/-- C3: on a non-empty record sequence (in particular one mixing
records with and without a nested nutrition mapping), `save_as_csv`
writes a header equal to the sorted, duplicate-free union of the keys
of all flattened records — nutrition keys appearing with the
`nutrition_` prefix via `flattenItem` — and every data row has exactly
one cell per header column (blank for an absent key). -/
theorem save_as_csv_header_and_rows (data : List MenuItem)
    (h : data ≠ []) :
    ∃ header rows,
      (save_as_csv data).2 = some (header, rows) ∧
      header.Sorted (fun a b : String => a ≤ b) ∧
      header.Nodup ∧
      (∀ k, k ∈ header ↔ ∃ it ∈ data, k ∈ (flattenItem it).map Prod.fst) ∧
      rows.length = data.length ∧
      (∀ row ∈ rows, row.length = header.length) := by
  refine ⟨fieldnames data, data.map (csvRow (fieldnames data)),
    ?_, fieldnames_sorted data, fieldnames_nodup data,
    mem_fieldnames data, ?_, ?_⟩
  · simp [save_as_csv, h]
  · simp
  · intro row hrow
    obtain ⟨it, _, rfl⟩ := List.mem_map.1 hrow
    simp [csvRow]

/-- A heterogeneous fixture: one record with a nutrition mapping, one
without. -/
def dataEx : List MenuItem := [mkAwItem "Burgers" itemA, mkMcdItem "Burgers" itemB]

/-- Witness for C3 at the heterogeneous fixture. -/
theorem save_as_csv_header_and_rows_witness :
    dataEx ≠ [] ∧
    ∃ header rows,
      (save_as_csv dataEx).2 = some (header, rows) ∧
      header.Sorted (fun a b : String => a ≤ b) ∧
      header.Nodup ∧
      (∀ k, k ∈ header ↔
        ∃ it ∈ dataEx, k ∈ (flattenItem it).map Prod.fst) ∧
      rows.length = dataEx.length ∧
      (∀ row ∈ rows, row.length = header.length) :=
  ⟨by decide, save_as_csv_header_and_rows dataEx (by decide)⟩

/-- A McDonalds item block whose image `src` is root-relative. -/
def mcdRootRelItem : ItemBlock :=
  { nameElem := some "Big Mac", descElem := none, priceElem := none,
    imgSrc := some "/content/bigmac.png", nutritionElem := none }

/-- A one-category McDonalds fixture page. -/
def mcdPageEx : List CategoryBlock :=
  [{ titleElem := some "Burgers", items := [mcdRootRelItem] }]

/-- C6 counterexample: the McDonalds extractor (one of the extraction
sites the claim cites) emits a root-relative image source unchanged —
the emitted `image_url` still starts with `/` and is not the path
prefixed with the scheme and host of the site. -/
theorem mcd_image_not_rewritten :
    (scrape_mcdonalds mcdPageEx).map MenuItem.image_url =
      ["/content/bigmac.png"] ∧
    pyStartsWith "/content/bigmac.png" "/" = true ∧
    ("/content/bigmac.png" : String) ≠
      "https://www.mcdonalds.com/content/bigmac.png" := by decide

/-- C6 amended: the rewrite holds for the two A&W extractors — a
truthy root-relative `src` is emitted prefixed with
`https://web.aw.ca`, and an already-absolute `src` is emitted
unchanged — while the McDonalds extractor emits every truthy `src`
verbatim, rewriting nothing. -/
theorem image_url_rewrite_amended :
    (∀ (l : String) (it : ItemBlock) (s : String),
        it.imgSrc = some s → s ≠ "" → pyStartsWith s "/" = true →
        (mkAwItem l it).image_url = "https://web.aw.ca" ++ s ∧
        (mkFfItem l it).image_url = "https://web.aw.ca" ++ s) ∧
    (∀ (l : String) (it : ItemBlock) (s : String),
        it.imgSrc = some s → s ≠ "" → pyStartsWith s "/" = false →
        (mkAwItem l it).image_url = s ∧ (mkFfItem l it).image_url = s) ∧
    (∀ (l : String) (it : ItemBlock) (s : String),
        it.imgSrc = some s → s ≠ "" →
        (mkMcdItem l it).image_url = s) := by
  refine ⟨?_, ?_, ?_⟩
  · intro l it s h1 h2 h3
    constructor <;> simp [mkAwItem, mkFfItem, awImageUrl, h1, h2, h3]
  · intro l it s h1 h2 h3
    constructor <;> simp [mkAwItem, mkFfItem, awImageUrl, h1, h2, h3]
  · intro l it s h1 h2
    simp [mkMcdItem, mcdImageUrl, h1, h2]

/-- Witness for the amended C6 at the concrete root-relative image of
the fixture item. -/
theorem image_url_rewrite_amended_witness :
    itemA.imgSrc = some "/images/teen.png" ∧
    (mkAwItem "Burgers" itemA).image_url =
      "https://web.aw.ca/images/teen.png" :=
  ⟨rfl,
    ((image_url_rewrite_amended.1 "Burgers" itemA "/images/teen.png" rfl
      (by decide) (by decide)).1).trans (by decide)⟩

/-- C7: `save_as_csv` on an empty record sequence returns the failure
flag `False` and writes nothing — in particular no header-only file. -/
theorem save_as_csv_empty_no_write :
    save_as_csv [] = (false, none) := rfl

/-- C10: on the same empty input the two sinks disagree —
`save_as_json` succeeds and writes the empty array while `save_as_csv`
reports failure and writes nothing. -/
theorem save_empty_sink_asymmetry :
    save_as_json ([] : List MenuItem) = (true, some []) ∧
    save_as_csv ([] : List MenuItem) = (false, none) :=
  ⟨rfl, rfl⟩

/-- A category block whose title element is present but has empty
stripped text. -/
def emptyTitleCat : CategoryBlock :=
  { titleElem := some "", items := [itemB] }

/-- C9 counterexample: with a present-but-empty category title the
Jupyter A&W extractor emits an item whose `category` field is the
empty string, so `category` is not always non-empty. -/
theorem empty_category_counterexample :
    ∃ x, x ∈ scrape_aw [emptyTitleCat] ∧ x.category = "" :=
  ⟨mkAwItem "" itemB, by decide, rfl⟩

/-- C9 amended: provided every present category title (resp. category
link text) is non-empty, every emitted item has a non-empty
`restaurant` and a non-empty `category`; independently, a missing name
sub-element always yields the `"Unknown"` sentinel rather than an
absent field. -/
theorem emitted_item_invariants :
    (∀ (page : List CategoryBlock),
        (∀ c ∈ page, ∀ t, c.titleElem = some t → t ≠ "") →
        ∀ x ∈ scrape_aw page, x.restaurant ≠ "" ∧ x.category ≠ "") ∧
    (∀ (l : String) (it : ItemBlock),
        it.nameElem = none → (mkAwItem l it).name = "Unknown") ∧
    (∀ (page : FirefoxPage),
        (∀ cat ∈ page.categoryLinks, cat ≠ "") →
        ∀ x ∈ scrape_aw_menu page,
          x.restaurant ≠ "" ∧ x.category ≠ "") ∧
    (∀ (l : String) (it : ItemBlock),
        it.nameElem = none → (mkFfItem l it).name = "Unknown") := by
  refine ⟨?_, ?_, ?_, ?_⟩
  · intro page hcat x hx
    rw [scrape_aw_flatMap] at hx
    obtain ⟨c, hc, hx⟩ := List.mem_flatMap.1 hx
    obtain ⟨it, _, rfl⟩ := List.mem_map.1 hx
    refine ⟨by simp [mkAwItem], ?_⟩
    show categoryLabel c ≠ ""
    unfold categoryLabel
    cases ht : c.titleElem with
    | none => simp
    | some t => simpa using hcat c hc t ht
  · intro l it h; simp [mkAwItem, h]
  · intro page hcat x hx
    rw [scrape_aw_menu_flatMap] at hx
    obtain ⟨cat, hc, hx⟩ := List.mem_flatMap.1 hx
    obtain ⟨it, _, rfl⟩ := List.mem_map.1 hx
    exact ⟨by simp [mkFfItem], hcat cat hc⟩
  · intro l it h; simp [mkFfItem, h]

/-- Witness for the amended C9 at the fixture page. -/
theorem emitted_item_invariants_witness :
    (mkAwItem (categoryLabel catBurgers) itemA).restaurant ≠ "" ∧
    (mkAwItem (categoryLabel catBurgers) itemA).category ≠ "" :=
  emitted_item_invariants.1 pageEx (by decide)
    (mkAwItem (categoryLabel catBurgers) itemA) (by decide)

/-- The three per-character substitutions of `category_class`
composed, on one character. -/
def normStep (c : Char) : List Char :=
  ((pyReplaceSpace c).flatMap pyReplaceAmp).flatMap pyDropApos

/-- `Char.ofNat` round-trips on lowercase-letter code points. -/
theorem charOfNat_toNat_of_lower (n : Nat) (h1 : 97 ≤ n)
    (h2 : n ≤ 122) : (Char.ofNat n).toNat = n := by
  have h : n < 55296 ∨ 57343 < n ∧ n < 1114112 := Or.inl (by omega)
  rw [Char.ofNat, dif_pos h]
  rfl

/-- `Char.toLower` shifts an uppercase ASCII letter by 32. -/
theorem toLower_toNat_of_upper (c : Char)
    (h : 65 ≤ c.toNat ∧ c.toNat ≤ 90) :
    (Char.toLower c).toNat = c.toNat + 32 := by
  simp only [Char.toLower]
  rw [if_pos h]
  exact charOfNat_toNat_of_lower _ (by omega) (by omega)

/-- `Char.toLower` cannot produce a character with code point below 65
other than the input itself. -/
theorem toLower_ne_of_lt65 (c d : Char) (hd : d.toNat < 65)
    (hne : c ≠ d) : Char.toLower c ≠ d := by
  by_cases h : 65 ≤ c.toNat ∧ c.toNat ≤ 90
  · intro heq
    have h1 := toLower_toNat_of_upper c h
    rw [heq] at h1
    omega
  · have h2 : Char.toLower c = c := by
      simp only [Char.toLower]
      rw [if_neg h]
    rw [h2]
    exact hne

/-- Lowercasing commutes with one normalization step: the three
substituted characters and their images are all case-fixed. -/
theorem normStep_comm (c : Char) :
    (normStep c).map Char.toLower = normStep (Char.toLower c) := by
  by_cases h1 : c = ' '
  · subst h1; decide
  · by_cases h2 : c = '&'
    · subst h2; decide
    · by_cases h3 : c = Char.ofNat 39
      · subst h3; decide
      · have e1 : normStep c = [c] := by
          simp [normStep, pyReplaceSpace, pyReplaceAmp, pyDropApos,
            h1, h2, h3]
        have l1 : Char.toLower c ≠ ' ' :=
          toLower_ne_of_lt65 c ' ' (by decide) h1
        have l2 : Char.toLower c ≠ '&' :=
          toLower_ne_of_lt65 c '&' (by decide) h2
        have l3 : Char.toLower c ≠ Char.ofNat 39 :=
          toLower_ne_of_lt65 c (Char.ofNat 39) (by decide) h3
        have e2 : normStep (Char.toLower c) = [Char.toLower c] := by
          simp [normStep, pyReplaceSpace, pyReplaceAmp, pyDropApos,
            l1, l2, l3]
        rw [e1, e2]
        rfl

/-- The chain of the three substitutions is `flatMap normStep`. -/
theorem flatMap_norm_chain (l : List Char) :
    ((l.flatMap pyReplaceSpace).flatMap pyReplaceAmp).flatMap pyDropApos
      = l.flatMap normStep := by
  rw [List.flatMap_assoc, List.flatMap_assoc]
  congr 1
  funext c
  exact (List.flatMap_assoc (pyReplaceSpace c) pyReplaceAmp
    pyDropApos).symm

/-- C8: for every category label, the class name the Firefox A&W
extractor derives (substitutions first, lowercase last) equals the
normalization rule of the spec (lowercase first, then the
substitutions). -/
theorem category_class_eq_spec_normalize (category : String) :
    category_class category = spec_normalize category := by
  unfold category_class spec_normalize
  congr 1
  rw [flatMap_norm_chain, flatMap_norm_chain, List.map_flatMap,
    List.flatMap_map]
  congr 1
  funext c
  exact normStep_comm c
